import Mathlib

/-
Shallow embedding of the CPU+bus core of the snailemu SNES emulator
(src/src/cpu and src/src/hardware), written for checking the repository
specification against the code.  Machine integers u8/u16 are modelled as
Nat with explicit reduction modulo 2^8 / 2^16 where the source wraps;
booleans stay Bool; the master-clock accounting is modelled only where a
claim mentions cycles.
-/

namespace Snailemu

/-- Wrapping 16-bit increment/decrement helpers; `b` is at most 65536 at
every call site, mirroring u16 wrapping_add / wrapping_sub. -/
def wadd16 (a b : Nat) : Nat := (a + b) % 65536

def wsub16 (a b : Nat) : Nat := (a + 65536 - b) % 65536

def wadd8 (a b : Nat) : Nat := (a + b) % 256

/-- CPU flag state, from `CpuFlags` in src/src/cpu/cpu.rs. -/
structure CpuFlags where
  negative : Bool
  overflow : Bool
  memory_size : Bool
  index_size : Bool
  unused_flag : Bool
  break_flag : Bool
  decimal_mode : Bool
  interrupt_disable : Bool
  zero : Bool
  carry : Bool
  emulation_mode : Bool
deriving DecidableEq, Repr

/-- CPU register file, from `CpuRegisters` in src/src/cpu/cpu.rs. -/
structure CpuRegisters where
  accumulator : Nat
  index_x : Nat
  index_y : Nat
  data_bank : Nat
  direct_page : Nat
  program_bank : Nat
  program_counter : Nat
  stack_pointer : Nat
deriving DecidableEq, Repr

structure CpuState where
  flags : CpuFlags
  regs : CpuRegisters
deriving DecidableEq, Repr

/-- Bit-packing into one byte, the shape shared by both branches of the
P-register read. -/
def pack_bits (b7 b6 b5 b4 b3 b2 b1 b0 : Bool) : Nat :=
  (b7.toNat <<< 7) ||| (b6.toNat <<< 6) ||| (b5.toNat <<< 5) ||| (b4.toNat <<< 4) |||
    (b3.toNat <<< 3) ||| (b2.toNat <<< 2) ||| (b1.toNat <<< 1) ||| b0.toNat

/-- The bit test the P-register write performs on the written byte. -/
def bit_set (value mask : Nat) : Bool := (value &&& mask) != 0

namespace ProcessorState

/-- Packing of the P register byte, from `impl Read<u8> for ProcessorState`
in src/src/cpu/register.rs: the layout of bits 5 and 4 depends on the
emulation flag. -/
def get (flags : CpuFlags) : Nat :=
  if flags.emulation_mode then
    pack_bits flags.negative flags.overflow flags.unused_flag flags.break_flag
      flags.decimal_mode flags.interrupt_disable flags.zero flags.carry
  else
    pack_bits flags.negative flags.overflow flags.memory_size flags.index_size
      flags.decimal_mode flags.interrupt_disable flags.zero flags.carry

/-- Unpacking of a written P byte, from `impl Write<u8> for ProcessorState`
in src/src/cpu/register.rs: bits 5 and 4 go to U/B in emulation mode and to
M/X in native mode, and in native mode a write that leaves the index-size
bit set truncates both index registers to their low byte. -/
def set (flags : CpuFlags) (regs : CpuRegisters) (value : Nat) : CpuFlags × CpuRegisters :=
  let flags1 : CpuFlags :=
    { flags with
        negative := bit_set value 0x80
        overflow := bit_set value 0x40
        decimal_mode := bit_set value 0x08
        interrupt_disable := bit_set value 0x04
        zero := bit_set value 0x02
        carry := bit_set value 0x01 }
  let flags2 : CpuFlags :=
    if flags.emulation_mode then
      { flags1 with
          unused_flag := bit_set value 0x20
          break_flag := bit_set value 0x10 }
    else
      { flags1 with
          memory_size := bit_set value 0x20
          index_size := bit_set value 0x10 }
  let truncate_index_regs : Bool :=
    if flags.emulation_mode then false else bit_set value 0x10
  (flags2,
    if truncate_index_regs then
      { regs with index_x := regs.index_x &&& 0x00FF, index_y := regs.index_y &&& 0x00FF }
    else regs)

end ProcessorState

/-- XCE, from `exchange_carry_and_emulation_bits` in src/src/cpu/cpu.rs:
swap carry with emulation mode, then set `memory_size` and `index_size`
unconditionally.  The registers are untouched (the io cycle is not
modelled). -/
def exchange_carry_and_emulation_bits (s : CpuState) : CpuState :=
  { s with flags :=
      { s.flags with
          carry := s.flags.emulation_mode
          emulation_mode := s.flags.carry
          memory_size := true
          index_size := true } }

/-- Direction selector for the block-move instructions, from `BlockMove`
in src/src/cpu/cpu.rs. -/
inductive BlockMove where
  | negative
  | positive
deriving DecidableEq, Repr

/-- Memory visible to an instruction: a byte per (bank, offset) pair plus
a log of the byte writes performed, in order. -/
structure BusState where
  mem : Nat → Nat → Nat
  writes : List (Nat × Nat × Nat)

def BusState.write8 (bus : BusState) (bank offset value : Nat) : BusState :=
  { mem := fun b o => if b = bank ∧ o = offset then value else bus.mem b o
    writes := bus.writes ++ [(bank, offset, value)] }

/-- MVN/MVP, from `move_block` in src/src/cpu/cpu.rs: reads the two bank
operands at the program counter, transfers one byte from src_bank:X to
dst_bank:Y, advances the index registers per direction (the positive case
reads the already-updated X when writing Y, exactly as the source does),
decrements A, and rewinds the program counter by 3 unless A became $FFFF.
Cycle charging is not modelled. -/
def move_block (block_move : BlockMove) (s : CpuState) (bus : BusState) : CpuState × BusState :=
  let dst_bank := bus.mem s.regs.program_bank s.regs.program_counter
  let pc1 := wadd16 s.regs.program_counter 1
  let src_bank := bus.mem s.regs.program_bank pc1
  let pc2 := wadd16 pc1 1
  let value := bus.mem src_bank s.regs.index_x
  let bus := bus.write8 dst_bank s.regs.index_y value
  let regs := s.regs
  let regs :=
    match block_move with
    | BlockMove.negative =>
        { regs with index_x := wadd16 regs.index_x 1, index_y := wadd16 regs.index_y 1 }
    | BlockMove.positive =>
        let x2 := wsub16 regs.index_x 1
        { regs with index_x := x2, index_y := wsub16 x2 1 }
  let regs := { regs with accumulator := wsub16 regs.accumulator 1 }
  let regs :=
    if regs.accumulator ≠ 0xFFFF then
      { regs with program_counter := wsub16 pc2 3 }
    else
      { regs with program_counter := pc2 }
  ({ s with regs := regs }, bus)

/-- Outcome of a binary ADC/SBC step: the accumulator result and the four
flags the operation writes. -/
structure ArithResult where
  result : Nat
  carry : Bool
  overflow : Bool
  zero : Bool
  negative : Bool
deriving DecidableEq, Repr

/-- Sign-bit test of a value of width `M` (M = 256 or 65536), from
`is_negative` in src/src/cpu/value.rs. -/
def is_negative (M v : Nat) : Bool := (v &&& (M / 2)) != 0

/-- Bitwise complement within the width `M`. -/
def wnot (M v : Nat) : Nat := v ^^^ (M - 1)

/-- Binary-mode ADC, from `add_with_carry` in src/src/cpu/cpu.rs for
T = u8 (M = 256) or u16 (M = 65536): the result is the wrapping sum and
the carry flag is set exactly when `result < lhs`. -/
def add_with_carry (M lhs rhs : Nat) (carry : Bool) : ArithResult :=
  let result := (lhs + rhs + carry.toNat) % M
  { result := result
    carry := result < lhs
    overflow := is_negative M (wnot M (lhs ^^^ rhs) &&& (rhs ^^^ result))
    zero := result == 0
    negative := is_negative M result }

/-- Binary-mode SBC, from `subtract_with_carry` in src/src/cpu/cpu.rs:
the result is the wrapping difference minus the complemented carry and the
carry flag is set exactly when `result <= lhs`.  Arguments below `M`. -/
def subtract_with_carry (M lhs rhs : Nat) (carry : Bool) : ArithResult :=
  let step1 := (lhs + M - rhs) % M
  let result := (step1 + M - (1 - carry.toNat)) % M
  { result := result
    carry := result ≤ lhs
    overflow := is_negative M ((lhs ^^^ rhs) &&& (lhs ^^^ result))
    zero := result == 0
    negative := is_negative M result }

/-- Static description of an interrupt source, from the `Interrupt` trait
in src/src/cpu/interrupt.rs. -/
structure InterruptKind where
  native_vector : Nat
  emulation_vector : Nat
  has_signature : Bool
  set_break : Bool
  set_interrupt_disable : Bool
deriving DecidableEq, Repr

def BreakKind : InterruptKind :=
  { native_vector := 0xFFE6, emulation_vector := 0xFFFE
    has_signature := true, set_break := true, set_interrupt_disable := true }

def CoprocessorKind : InterruptKind :=
  { native_vector := 0xFFE5, emulation_vector := 0xFFF4
    has_signature := true, set_break := false, set_interrupt_disable := true }

def IrqKind : InterruptKind :=
  { native_vector := 0xFFEE, emulation_vector := 0xFFFE
    has_signature := false, set_break := false, set_interrupt_disable := true }

def NmiKind : InterruptKind :=
  { native_vector := 0xFFEA, emulation_vector := 0xFFFA
    has_signature := false, set_break := false, set_interrupt_disable := false }

/-- Push one byte, from the `push_value!` macro in src/src/cpu/cpu.rs:
the stack pointer drops by the value size and the bytes are written at
bank 0 starting one above the new stack pointer. -/
def push8 (regs : CpuRegisters) (bus : BusState) (value : Nat) : CpuRegisters × BusState :=
  let sp := wsub16 regs.stack_pointer 1
  ({ regs with stack_pointer := sp }, bus.write8 0 (wadd16 sp 1) value)

/-- Push a 16-bit value: low byte at the lower address, as `MemoryAccess
for u16` writes in src/src/hardware/hardware.rs. -/
def push16 (regs : CpuRegisters) (bus : BusState) (value : Nat) : CpuRegisters × BusState :=
  let sp := wsub16 regs.stack_pointer 2
  let base := wadd16 sp 1
  let bus := bus.write8 0 base (value % 256)
  let bus := bus.write8 0 (wadd16 base 1) ((value / 256) % 256)
  ({ regs with stack_pointer := sp }, bus)

/-- Little-endian 16-bit read at bank 0, offset wrapping in-bank. -/
def read16at0 (bus : BusState) (offset : Nat) : Nat :=
  bus.mem 0 offset + 256 * bus.mem 0 (wadd16 offset 1)

/-- Interrupt service, from `Cpu::interrupt` in src/src/cpu/cpu.rs: an
optional signature fetch, then in emulation mode the break flag is set
unconditionally and the emulation vector chosen, while in native mode the
program bank is pushed and zeroed and the native vector chosen; the
program counter and the packed P are pushed, decimal mode cleared, the
per-kind break and interrupt-disable settings applied, and the new program
counter loaded from bank 0 at the vector offset.  IO cycles are not
modelled. -/
def interrupt (I : InterruptKind) (s : CpuState) (bus : BusState) : CpuState × BusState :=
  let regs := s.regs
  let flags := s.flags
  let regs :=
    if I.has_signature then
      { regs with program_counter := wadd16 regs.program_counter 1 }
    else regs
  let step :=
    if flags.emulation_mode then
      ({ flags with break_flag := true }, regs, bus, I.emulation_vector)
    else
      let (regs, bus) := push8 regs bus regs.program_bank
      (flags, { regs with program_bank := 0x00 }, bus, I.native_vector)
  let flags := step.1
  let regs := step.2.1
  let bus := step.2.2.1
  let vector_offset := step.2.2.2
  let (regs, bus) := push16 regs bus regs.program_counter
  let flags := if I.set_break then { flags with break_flag := true } else flags
  let (regs, bus) := push8 regs bus (ProcessorState.get flags)
  let regs := { regs with program_counter := read16at0 bus vector_offset }
  let flags := { flags with decimal_mode := false }
  let flags :=
    if I.set_interrupt_disable then { flags with interrupt_disable := true } else flags
  ({ flags := flags, regs := regs }, bus)

/-- Raster-IRQ trigger condition, from `IrqCondition` in
src/src/hardware/registers.rs. -/
inductive IrqCondition where
  | never
  | matchRow
  | matchColumn
  | matchRowAndColumn
deriving DecidableEq, Repr

/-- The pending-action bitflags NMI/IRQ/DMA, from `CpuAction` in
src/src/hardware/registers.rs. -/
structure CpuAction where
  nmi : Bool
  irq : Bool
  dma : Bool
deriving DecidableEq, Repr

/-- The register-file state mutated by the $4200 block writes, from
`HardwareRegs` in src/src/hardware/registers.rs (fields not touched by the
modelled offsets are left out). -/
structure HardwareRegsState where
  cpu_action : CpuAction
  nmi_enabled : Bool
  joypad_auto_read_enabled : Bool
  irq_enabled : IrqCondition
  irq_row : Nat
  irq_column : Nat
  io_port_value : Nat
  multiplication_lhs : Nat
  multiplication_result : Nat
  division_lhs : Nat
  division_result : Nat
  dma_channel_mask : Nat
deriving DecidableEq, Repr

/-- The $4206 arm of the register write dispatch: writing the divisor
starts the 16/8 division, the remainder landing in the multiplication
result; a zero divisor yields quotient $FFFF and remainder equal to the
dividend (src/src/hardware/registers.rs lines 254-263). -/
def HardwareRegsState.division_write (r : HardwareRegsState) (value : Nat) : HardwareRegsState :=
  if value ≠ 0 then
    { r with
        division_result := r.division_lhs / value
        multiplication_result := r.division_lhs % value }
  else
    { r with
        division_result := 0xFFFF
        multiplication_result := r.division_lhs }

def set_lower16 (n v : Nat) : Nat := (n &&& 0xFF00) ||| (v &&& 0xFF)

def set_upper16 (n v : Nat) : Nat := (n &&& 0x00FF) ||| ((v &&& 0xFF) <<< 8)

/-- Write dispatch of the system registers, from `impl HardwareBus for
HardwareRegs::write` in src/src/hardware/registers.rs; `offset` is the
in-port offset (bus offset minus $4200) and `value` the written byte. -/
def HardwareRegsState.write (r : HardwareRegsState) (offset value : Nat) : HardwareRegsState :=
  let value := value % 256
  match offset with
  | 0x00 =>
      { r with
          nmi_enabled := (value &&& 0x80) != 0
          joypad_auto_read_enabled := (value &&& 0x01) != 0
          irq_enabled :=
            if value &&& 0x30 = 0x10 then IrqCondition.matchColumn
            else if value &&& 0x30 = 0x20 then IrqCondition.matchRow
            else if value &&& 0x30 = 0x30 then IrqCondition.matchRowAndColumn
            else IrqCondition.never }
  | 0x01 => { r with io_port_value := value }
  | 0x02 => { r with multiplication_lhs := value }
  | 0x03 => { r with multiplication_result := r.multiplication_lhs * value }
  | 0x04 => { r with division_lhs := set_lower16 r.division_lhs value }
  | 0x05 => { r with division_lhs := set_upper16 r.division_lhs value }
  | 0x06 => r.division_write value
  | 0x07 => { r with irq_column := set_lower16 r.irq_column value }
  | 0x08 => { r with irq_column := set_upper16 r.irq_column (value &&& 0x01) }
  | 0x09 => { r with irq_row := set_lower16 r.irq_row value }
  | 0x0A => { r with irq_row := set_upper16 r.irq_row (value &&& 0x01) }
  | 0x0B =>
      let r := { r with dma_channel_mask := value }
      if value ≠ 0x00 then { r with cpu_action := { r.cpu_action with dma := true } } else r
  | _ => r

/-- From `HardwareRegs::cpu_action_ready` in src/src/hardware/registers.rs. -/
def cpu_action_ready (r : HardwareRegsState) : Bool :=
  r.cpu_action.nmi || r.cpu_action.irq || r.cpu_action.dma

/-- What one top-level `Cpu::tick` does before (or instead of) opcode
execution. -/
inductive TickOutcome where
  | serviceNmi
  | serviceIrq
  | irqBlocked
  | serviceDma (mask : Nat)
  | fetchOpcode
  | unknownAction
deriving DecidableEq, Repr

/-- The arbitration prefix of `Cpu::tick` in src/src/cpu/cpu.rs combined
with the check_and_reset accessors of src/src/hardware/registers.rs: when
any pending action is set, take and clear at most one of NMI, IRQ, DMA in
that order (an IRQ taken while the interrupt-disable flag is set is
cleared but not serviced); otherwise fetch an opcode.  The `unknownAction`
arm mirrors the panic on an action that is none of the three. -/
def tick_arbitrate (interrupt_disable : Bool) (r : HardwareRegsState) :
    TickOutcome × HardwareRegsState :=
  if cpu_action_ready r then
    if r.cpu_action.nmi then
      (TickOutcome.serviceNmi, { r with cpu_action := { r.cpu_action with nmi := false } })
    else if r.cpu_action.irq then
      (if interrupt_disable then TickOutcome.irqBlocked else TickOutcome.serviceIrq,
        { r with cpu_action := { r.cpu_action with irq := false } })
    else if r.cpu_action.dma then
      (TickOutcome.serviceDma r.dma_channel_mask,
        { r with cpu_action := { r.cpu_action with dma := false }, dma_channel_mask := 0x00 })
    else
      (TickOutcome.unknownAction, r)
  else
    (TickOutcome.fetchOpcode, r)

/-- Number of pending hardware actions a tick outcome services. -/
def TickOutcome.servicedCount : TickOutcome → Nat
  | TickOutcome.serviceNmi => 1
  | TickOutcome.serviceIrq => 1
  | TickOutcome.serviceDma _ => 1
  | _ => 0

/-- Cartridge mapping mode, from `RomMode` in src/src/hardware/rom.rs. -/
inductive RomMode where
  | loRom
  | hiRom
deriving DecidableEq, Repr

/-- ROM and SRAM index maps, from `rom20`, `rom21`, `sram20`, `sram21` in
src/src/hardware/hardware.rs. -/
def rom20 (bank offset : Nat) : Nat := 0x8000 * (bank &&& 0x7F) + (offset &&& 0x7FFF)

def rom21 (bank offset : Nat) : Nat := 0x10000 * (bank &&& 0x3F) + offset

def sram20 (bank offset : Nat) : Nat := 0x8000 * (bank &&& 0x0F) + (offset &&& 0x7FFF)

def sram21 (bank offset : Nat) : Nat := 0x2000 * (bank &&& 0x1F) + (offset &&& 0x1FFF)

/-- Destination port of one decoded bus access. -/
inductive BusTarget where
  | wram (index : Nat)
  | rom (index : Nat)
  | sram (index : Nat)
  | ppu (offset : Nat)
  | apu (offset : Nat)
  | wramPort (offset : Nat)
  | regsPort (offset : Nat)
  | dmaPort (channel : Nat) (offset : Nat)
  | joyPort (offset : Nat)
  | openBus
deriving DecidableEq, Repr

/-- The bus router, from `Hardware::byte_at` in
src/src/hardware/hardware.rs: decodes a (bank, offset) pair into the
destination port, the in-port offset and the cycle cost. -/
def byte_at (mode : RomMode) (bank offset : Nat) : BusTarget × Nat :=
  if bank &&& 0x40 ≠ 0 then
    if bank = 0x7E then (BusTarget.wram offset, 8)
    else if bank = 0x7F then (BusTarget.wram (0x10000 ||| offset), 8)
    else
      match mode with
      | RomMode.loRom =>
          if offset &&& 0x8000 ≠ 0 then (BusTarget.rom (rom20 bank offset), 8)
          else if bank &&& 0x70 = 0x70 then (BusTarget.sram (sram20 bank offset), 8)
          else (BusTarget.openBus, 6)
      | RomMode.hiRom => (BusTarget.rom (rom21 bank offset), 8)
  else
    if offset &&& 0xE000 = 0x0000 then (BusTarget.wram offset, 8)
    else if offset &&& 0xE000 = 0x2000 then
      if offset &&& 0xFFC0 = 0x2100 then (BusTarget.ppu (offset &&& 0x003F), 6)
      else if offset &&& 0xFFC0 = 0x2140 then (BusTarget.apu (offset &&& 0x0003), 6)
      else if offset &&& 0xFFC0 = 0x2180 then (BusTarget.wramPort (offset &&& 0x003F), 6)
      else (BusTarget.openBus, 6)
    else if offset &&& 0xE000 = 0x4000 then
      if offset &&& 0xFF80 = 0x4200 then (BusTarget.regsPort (offset &&& 0x007F), 6)
      else if offset &&& 0xFF80 = 0x4300 then
        (BusTarget.dmaPort ((offset &&& 0x0070) >>> 4) (offset &&& 0x000F), 6)
      else if offset &&& 0xFF80 = 0x4000 then (BusTarget.joyPort (offset &&& 0x007F), 12)
      else (BusTarget.openBus, 6)
    else if offset &&& 0xE000 = 0x6000 then
      if mode = RomMode.hiRom ∧ bank &&& 0x20 = 0x20 then
        (BusTarget.sram (sram21 bank offset), 8)
      else (BusTarget.openBus, 8)
    else
      match mode with
      | RomMode.loRom => (BusTarget.rom (rom20 bank offset), 8)
      | RomMode.hiRom => (BusTarget.rom (rom21 bank offset), 8)

namespace SramBus

/-- SRAM read, from `impl HardwareBus for SramBus` in
src/src/hardware/rom.rs: the offset is reduced modulo the SRAM length
before indexing and an empty SRAM reads as 0. -/
def read (sram : List Nat) (offset : Nat) : Nat :=
  if h : 0 < sram.length then sram.get ⟨offset % sram.length, Nat.mod_lt _ h⟩ else 0

/-- SRAM write, from the same impl: modular indexing, and a write to an
empty SRAM is dropped. -/
def write (sram : List Nat) (offset value : Nat) : List Nat :=
  if 0 < sram.length then sram.set (offset % sram.length) value else sram

end SramBus

/-- DMA source-address stepping, from `IncrementType` in
src/src/hardware/dma.rs. -/
inductive IncrementType where
  | increment
  | decrement
  | fixed
deriving DecidableEq, Repr

/-- DMA transfer pattern, from `TransferMode` in src/src/hardware/dma.rs. -/
inductive TransferMode where
  | a
  | ab
  | aa
  | aabb
  | abcd
  | abab
deriving DecidableEq, Repr

/-- From `TransferMode::len` in src/src/hardware/dma.rs. -/
def TransferMode.len : TransferMode → Nat
  | TransferMode.a => 1
  | TransferMode.ab => 2
  | TransferMode.aa => 2
  | TransferMode.aabb => 4
  | TransferMode.abcd => 4
  | TransferMode.abab => 4

/-- Slot offset produced at a given phase, from `Iterator for
TransferModeIterator::next` in src/src/hardware/dma.rs. -/
def TransferMode.slot (m : TransferMode) (phase : Nat) : Nat :=
  match m with
  | TransferMode.a => phase
  | TransferMode.ab => phase
  | TransferMode.aa => phase / 2
  | TransferMode.aabb => phase / 2
  | TransferMode.abcd => phase
  | TransferMode.abab => phase % 2

/-- One DMA channel, from `DmaChannel` in src/src/hardware/dma.rs (the
HDMA table fields are omitted; the remaining-count lives in the offset of
`hdma_indirect_address`, kept here as `count`). -/
structure DmaChannelState where
  reverse_transfer : Bool
  increment_type : IncrementType
  transfer_mode : TransferMode
  destination : Nat
  source_bank : Nat
  source_offset : Nat
  count : Nat
  hdma_active : Bool
deriving DecidableEq, Repr

/-- Channel reset state, from `DmaChannel::new`. -/
def DmaChannelState.init : DmaChannelState :=
  { reverse_transfer := false
    increment_type := IncrementType.increment
    transfer_mode := TransferMode.a
    destination := 0x2100
    source_bank := 0x00
    source_offset := 0x0000
    count := 0x0000
    hdma_active := false }

/-- The hardware as the DMA engine sees it: a byte of memory per
(bank, offset) pair, the ordered log of byte writes and the master-cycle
counter advanced by `Hardware::tick`. -/
structure DmaHardware where
  mem : Nat → Nat → Nat
  writes : List (Nat × Nat × Nat)
  cycles : Nat

/-- Modelled from the spec: `Hardware::transfer`, called at
src/src/hardware/dma.rs line 171, is not among the provided sources.
Following §4.5 step 3 it performs one byte transfer between the two bus
addresses, the eight master cycles of the slot being charged separately
by the caller. -/
def DmaHardware.transfer (hw : DmaHardware) (srcBank srcOffset dstBank dstOffset : Nat) :
    DmaHardware :=
  let value := hw.mem srcBank srcOffset
  { hw with
      mem := fun b o => if b = dstBank ∧ o = dstOffset then value else hw.mem b o
      writes := hw.writes ++ [(dstBank, dstOffset, value)] }

def DmaHardware.tick (hw : DmaHardware) (cycles : Nat) : DmaHardware :=
  { hw with cycles := hw.cycles + cycles }

/-- The transfer loop of `dma_transfer` in src/src/hardware/dma.rs: at
each slot one byte moves between the channel source and bank 0 at
destination plus slot offset (swapped when `reverse_transfer`), eight
cycles are charged, the count is decremented with 16-bit wrapping, and the
loop stops the moment the count reaches zero - before the source-address
step, which only happens when the loop continues.  The fuel argument is
65536, the largest number of iterations one wrapping count can produce,
so the zero-fuel arm is never reached from `dma_channel_run`. -/
def dma_loop : Nat → Nat → DmaChannelState → DmaHardware → DmaChannelState × DmaHardware
  | 0, _, ch, hw => (ch, hw)
  | fuel + 1, phase, ch, hw =>
      let slotOffset := ch.transfer_mode.slot phase
      let dstOffset := wadd16 ch.destination slotOffset
      let hw :=
        if ch.reverse_transfer then
          hw.transfer 0 dstOffset ch.source_bank ch.source_offset
        else
          hw.transfer ch.source_bank ch.source_offset 0 dstOffset
      let hw := hw.tick 8
      let ch := { ch with count := wsub16 ch.count 1 }
      if ch.count = 0 then (ch, hw)
      else
        let ch :=
          match ch.increment_type with
          | IncrementType.increment => { ch with source_offset := wadd16 ch.source_offset 1 }
          | IncrementType.decrement => { ch with source_offset := wsub16 ch.source_offset 1 }
          | IncrementType.fixed => ch
        dma_loop fuel ((phase + 1) % ch.transfer_mode.len) ch hw

/-- Service of one channel inside `dma_transfer`: skipped entirely when
the mask bit is clear or HDMA is active on the channel; otherwise one
eight-cycle channel setup tick, then the transfer loop. -/
def dma_channel_run (ch : DmaChannelState) (hw : DmaHardware) : DmaChannelState × DmaHardware :=
  if ch.hdma_active then (ch, hw)
  else dma_loop 65536 0 ch (hw.tick 8)

/-- `dma_transfer` in src/src/hardware/dma.rs: one global eight-cycle
tick, then each of the eight channels whose mask bit is set is serviced in
index order. -/
def dma_transfer (channel_mask : Nat) (channels : List DmaChannelState) (hw : DmaHardware) :
    List DmaChannelState × DmaHardware :=
  let hw := hw.tick 8
  (List.range 8).foldl
    (fun acc i =>
      if channel_mask &&& (1 <<< i) = 0 then acc
      else
        let pair := dma_channel_run (acc.1.getD i DmaChannelState.init) acc.2
        (acc.1.set i pair.1, pair.2))
    (channels, hw)

/-
Concrete fixtures used by the evaluation theorems below.
-/

/-- All-clear native-mode flag state. -/
def flagsNative : CpuFlags :=
  { negative := false, overflow := false, memory_size := false, index_size := false
    unused_flag := false, break_flag := false, decimal_mode := false
    interrupt_disable := false, zero := false, carry := false, emulation_mode := false }

/-- All-clear emulation-mode flag state. -/
def flagsEmulation : CpuFlags := { flagsNative with emulation_mode := true }

/-- A register file with X=5, Y=10, A=2, the inputs of the MVP scenario. -/
def regsFix : CpuRegisters :=
  { accumulator := 2, index_x := 5, index_y := 10, data_bank := 0, direct_page := 0
    program_bank := 0, program_counter := 0x8002, stack_pointer := 0x01FF }

/-- A bus whose memory reads as zero everywhere. -/
def zeroBus : BusState := { mem := fun _ _ => 0, writes := [] }

/-- A bus holding $34,$12 at the emulation NMI vector $FFFA and $78,$56 at
the native NMI vector $FFEA. -/
def vectorBus : BusState :=
  { mem := fun b o =>
      if b = 0 ∧ o = 0xFFFA then 0x34
      else if b = 0 ∧ o = 0xFFFB then 0x12
      else if b = 0 ∧ o = 0xFFEA then 0x78
      else if b = 0 ∧ o = 0xFFEB then 0x56
      else 0
    writes := [] }

/-- The DMA scenario channel: mode AABB, incrementing, forward, source
$00:$1000, destination byte $18, remaining-count 4. -/
def dmaChannelFix : DmaChannelState :=
  { reverse_transfer := false, increment_type := IncrementType.increment
    transfer_mode := TransferMode.aabb, destination := 0x2118
    source_bank := 0x00, source_offset := 0x1000, count := 4, hdma_active := false }

/-- All eight channels, channel 0 set up for the scenario. -/
def dmaChannelsFix : List DmaChannelState :=
  (List.replicate 8 DmaChannelState.init).set 0 dmaChannelFix

/-- Source memory $11,$22,$33,$44 at $00:$1000..$1003, cycle counter 0. -/
def dmaHwFix : DmaHardware :=
  { mem := fun b o =>
      if b = 0 ∧ o = 0x1000 then 0x11
      else if b = 0 ∧ o = 0x1001 then 0x22
      else if b = 0 ∧ o = 0x1002 then 0x33
      else if b = 0 ∧ o = 0x1003 then 0x44
      else 0
    writes := [], cycles := 0 }

/-
Claim theorems.
-/

/-- Claim C1: the claim states that one MVP step leaves X at old X minus 1
and Y at old Y minus 1.  Evaluating `move_block` at X=5, Y=10, A=2 shows
X and A are decremented as claimed but Y becomes 3 = old X minus 2, not
9 = old Y minus 1: line 760 of src/src/cpu/cpu.rs assigns Y from the
already-decremented X. -/
theorem mvp_sets_y_from_decremented_x :
    (move_block BlockMove.positive { flags := flagsNative, regs := regsFix } zeroBus).1.regs.index_x
        = wsub16 regsFix.index_x 1 ∧
    (move_block BlockMove.positive { flags := flagsNative, regs := regsFix } zeroBus).1.regs.accumulator
        = wsub16 regsFix.accumulator 1 ∧
    (move_block BlockMove.positive { flags := flagsNative, regs := regsFix } zeroBus).1.regs.index_y
        = 3 ∧
    wsub16 regsFix.index_y 1 = 9 ∧
    (3 : Nat) ≠ 9 := by decide

/-- Claim C2 counterexample: starting in emulation mode with C=0 and M=X=0,
XCE lands in native mode (new E = 0) yet M and X are forced to 1, so they
are not left unchanged as the claim states. -/
theorem xce_to_native_changes_m_and_x :
    (exchange_carry_and_emulation_bits { flags := flagsEmulation, regs := regsFix }).flags.emulation_mode
        = false ∧
    flagsEmulation.memory_size = false ∧
    flagsEmulation.index_size = false ∧
    (exchange_carry_and_emulation_bits { flags := flagsEmulation, regs := regsFix }).flags.memory_size
        = true ∧
    (exchange_carry_and_emulation_bits { flags := flagsEmulation, regs := regsFix }).flags.index_size
        = true := by decide

/-- Claim C2 as amended: XCE swaps the carry flag with the emulation flag
and forces M and X to 1 unconditionally, whichever mode results; all other
flags and every register are unchanged. -/
theorem xce_swaps_c_e_and_always_forces_m_x (s : CpuState) :
    (exchange_carry_and_emulation_bits s).flags.carry = s.flags.emulation_mode ∧
    (exchange_carry_and_emulation_bits s).flags.emulation_mode = s.flags.carry ∧
    (exchange_carry_and_emulation_bits s).flags.memory_size = true ∧
    (exchange_carry_and_emulation_bits s).flags.index_size = true ∧
    (exchange_carry_and_emulation_bits s).flags.negative = s.flags.negative ∧
    (exchange_carry_and_emulation_bits s).flags.overflow = s.flags.overflow ∧
    (exchange_carry_and_emulation_bits s).flags.unused_flag = s.flags.unused_flag ∧
    (exchange_carry_and_emulation_bits s).flags.break_flag = s.flags.break_flag ∧
    (exchange_carry_and_emulation_bits s).flags.decimal_mode = s.flags.decimal_mode ∧
    (exchange_carry_and_emulation_bits s).flags.interrupt_disable = s.flags.interrupt_disable ∧
    (exchange_carry_and_emulation_bits s).flags.zero = s.flags.zero ∧
    (exchange_carry_and_emulation_bits s).regs = s.regs :=
  ⟨rfl, rfl, rfl, rfl, rfl, rfl, rfl, rfl, rfl, rfl, rfl, rfl⟩

/-- Claim C3: the code sets the ADC carry to `result < lhs` and the SBC
carry to `result <= lhs`.  When the operand is all-ones and the incoming
carry makes rhs + carry equal to 2^w the shortcut disagrees with the
standard carry-out/borrow the claim states, in both widths: ADC of
lhs=0, rhs=$FF, C_in=1 yields C=0 although the true sum reaches 2^8, and
SBC of lhs=$12, rhs=$FF, C_in=0 yields C=1 although lhs < rhs + 1. -/
theorem adc_sbc_carry_edge :
    (add_with_carry 256 0x00 0xFF true).result = 0 ∧
    (add_with_carry 256 0x00 0xFF true).carry = false ∧
    0x00 + 0xFF + 1 ≥ 256 ∧
    (add_with_carry 65536 0x0000 0xFFFF true).carry = false ∧
    0x0000 + 0xFFFF + 1 ≥ 65536 ∧
    (subtract_with_carry 256 0x12 0xFF false).carry = true ∧
    ¬ 0x12 ≥ 0xFF + 1 ∧
    (subtract_with_carry 65536 0x0012 0xFFFF false).carry = true ∧
    ¬ 0x0012 ≥ 0xFFFF + 1 := by decide

/-- Claim C4: servicing an NMI in emulation mode sets the break flag,
because `Cpu::interrupt` sets it unconditionally on the emulation path,
although `Nmi::set_break` is false; the interrupt-disable flag stays
clear and the vectors are $FFEA (native) and $FFFA (emulation) as the
claim states. -/
theorem nmi_sets_break_in_emulation_mode :
    flagsEmulation.break_flag = false ∧
    (interrupt NmiKind { flags := flagsEmulation, regs := regsFix } vectorBus).1.flags.break_flag
        = true ∧
    (interrupt NmiKind { flags := flagsEmulation, regs := regsFix } vectorBus).1.flags.interrupt_disable
        = false ∧
    (interrupt NmiKind { flags := flagsEmulation, regs := regsFix } vectorBus).1.regs.program_counter
        = 0x1234 ∧
    (interrupt NmiKind { flags := flagsNative, regs := regsFix } vectorBus).1.flags.break_flag
        = false ∧
    (interrupt NmiKind { flags := flagsNative, regs := regsFix } vectorBus).1.flags.interrupt_disable
        = false ∧
    (interrupt NmiKind { flags := flagsNative, regs := regsFix } vectorBus).1.regs.program_counter
        = 0x5678 := by decide

/-- Claim C5 counterexample: in the AABB scenario with remaining-count 4
the transfer loop stops the moment the count reaches zero, before the
final source-address step, so the channel source offset ends at $1003,
not $1004 as the claim states. -/
theorem dma_aabb_final_source_offset :
    ((dma_transfer 0x01 dmaChannelsFix dmaHwFix).1.getD 0 DmaChannelState.init).source_offset
        = 0x1003 ∧
    (0x1003 : Nat) ≠ 0x1004 := by decide

/-- Claim C5 as amended: the AABB scenario writes $11 then $22 to bus
offset $2118 (PPU port $18) and $33 then $44 to $2119 (PPU port $19), the
count reaches 0, the source offset ends at $1003 because the
source-address step is skipped once the count hits zero, and the cycles
charged are eight per byte plus one eight-cycle setup for the DMA request
and one for the channel. -/
theorem dma_aabb_scenario :
    (dma_transfer 0x01 dmaChannelsFix dmaHwFix).2.writes =
      [(0x00, 0x2118, 0x11), (0x00, 0x2118, 0x22), (0x00, 0x2119, 0x33), (0x00, 0x2119, 0x44)] ∧
    (byte_at RomMode.loRom 0x00 0x2118).1 = BusTarget.ppu 0x18 ∧
    (byte_at RomMode.loRom 0x00 0x2119).1 = BusTarget.ppu 0x19 ∧
    ((dma_transfer 0x01 dmaChannelsFix dmaHwFix).1.getD 0 DmaChannelState.init).count = 0 ∧
    ((dma_transfer 0x01 dmaChannelsFix dmaHwFix).1.getD 0 DmaChannelState.init).source_offset
        = 0x1003 ∧
    (dma_transfer 0x01 dmaChannelsFix dmaHwFix).2.cycles = 8 + 8 + 4 * 8 := by decide

/-- A register file whose index registers carry nonzero upper bytes. -/
def wideIndexRegs : CpuRegisters := { regsFix with index_x := 0x1234, index_y := 0x5678 }

/-- Claim C6: a P-register write in native mode that sets the index-size
bit truncates X and Y to their low bytes, but XCE, which also flips the
index-size flag from 0 to 1, leaves the upper bytes in place: line 992 of
src/src/cpu/cpu.rs sets the flag directly without the truncation that
`ProcessorState::set` performs. -/
theorem xce_skips_index_truncation :
    (ProcessorState.set flagsNative wideIndexRegs 0x30).1.index_size = true ∧
    (ProcessorState.set flagsNative wideIndexRegs 0x30).2.index_x = 0x34 ∧
    (ProcessorState.set flagsNative wideIndexRegs 0x30).2.index_y = 0x78 ∧
    flagsNative.index_size = false ∧
    (exchange_carry_and_emulation_bits { flags := flagsNative, regs := wideIndexRegs }).flags.index_size
        = true ∧
    (exchange_carry_and_emulation_bits { flags := flagsNative, regs := wideIndexRegs }).regs.index_x
        = 0x1234 ∧
    (exchange_carry_and_emulation_bits { flags := flagsNative, regs := wideIndexRegs }).regs.index_y
        = 0x5678 := by decide

set_option maxRecDepth 4096

/-- Packing the eight bit tests of a byte back together reproduces the
byte, for any byte value. -/
theorem pack_bits_of_bit_set (b : Nat) (hb : b < 256) :
    pack_bits (bit_set b 0x80) (bit_set b 0x40) (bit_set b 0x20) (bit_set b 0x10)
      (bit_set b 0x08) (bit_set b 0x04) (bit_set b 0x02) (bit_set b 0x01) = b := by
  revert hb
  revert b
  decide

/-- Claim C7: for every flag state and every byte b, writing b to the P
register and reading it back returns exactly b; bits 5 and 4 pass through
the U/B flags in emulation mode and the M/X flags in native mode. -/
theorem p_register_roundtrip (f : CpuFlags) (r : CpuRegisters) (b : Nat) (hb : b < 256) :
    ProcessorState.get (ProcessorState.set f r b).1 = b := by
  rcases f with ⟨n, v, m, x, u, bk, d, i, z, c, e⟩
  cases e
  · exact pack_bits_of_bit_set b hb
  · exact pack_bits_of_bit_set b hb

theorem p_register_roundtrip_witness :
    0xA5 < 256 ∧ ProcessorState.get (ProcessorState.set flagsEmulation regsFix 0xA5).1 = 0xA5 :=
  ⟨by decide, p_register_roundtrip flagsEmulation regsFix 0xA5 (by decide)⟩

/-- Claim C8: the bus routes $00:$4206 to the system-register port at
in-port offset 6, and for every dividend and every divisor byte v the
write stores dividend / v into the division result and dividend mod v
into the multiplication result when v is nonzero, and $FFFF plus the
dividend itself when v is zero; the function is total in both cases. -/
theorem division_by_zero_handling (r : HardwareRegsState) (v : Nat) (hv : v < 256) :
    (byte_at RomMode.loRom 0x00 0x4206).1 = BusTarget.regsPort 0x06 ∧
    (v ≠ 0 →
      (r.write 0x06 v).division_result = r.division_lhs / v ∧
      (r.write 0x06 v).multiplication_result = r.division_lhs % v) ∧
    (v = 0 →
      (r.write 0x06 v).division_result = 0xFFFF ∧
      (r.write 0x06 v).multiplication_result = r.division_lhs) := by
  have hmod : v % 256 = v := Nat.mod_eq_of_lt hv
  have hw : r.write 0x06 v = r.division_write v := by
    show r.division_write (v % 256) = r.division_write v
    rw [hmod]
  refine ⟨by decide, ?_, ?_⟩
  · intro hne
    rw [hw]
    unfold HardwareRegsState.division_write
    rw [if_pos hne]
    exact ⟨rfl, rfl⟩
  · intro h0
    rw [hw]
    unfold HardwareRegsState.division_write
    rw [if_neg (by simp [h0])]
    exact ⟨rfl, rfl⟩

/-- The all-clear register-file fixture used to witness the C8 theorem. -/
def hwRegsFix : HardwareRegsState :=
  { cpu_action := { nmi := false, irq := false, dma := false }
    nmi_enabled := false, joypad_auto_read_enabled := false
    irq_enabled := IrqCondition.never, irq_row := 0, irq_column := 0
    io_port_value := 0, multiplication_lhs := 0xFF, multiplication_result := 0
    division_lhs := 0x1234, division_result := 0, dma_channel_mask := 0 }

theorem division_by_zero_handling_witness :
    7 < 256 ∧
    ((byte_at RomMode.loRom 0x00 0x4206).1 = BusTarget.regsPort 0x06 ∧
      (7 ≠ 0 →
        (hwRegsFix.write 0x06 7).division_result = hwRegsFix.division_lhs / 7 ∧
        (hwRegsFix.write 0x06 7).multiplication_result = hwRegsFix.division_lhs % 7) ∧
      (7 = 0 →
        (hwRegsFix.write 0x06 7).division_result = 0xFFFF ∧
        (hwRegsFix.write 0x06 7).multiplication_result = hwRegsFix.division_lhs)) :=
  ⟨by decide, division_by_zero_handling hwRegsFix 7 (by decide)⟩

/-- Claim C9: whenever at least one of NMI, IRQ, DMA is pending, one tick
fetches no opcode, never reaches the unknown-action panic, services at
most one action, prefers NMI over IRQ over DMA, and services an IRQ only
when the interrupt-disable flag is clear (a blocked IRQ is consumed but
not serviced). -/
theorem tick_services_at_most_one_action (i : Bool) (r : HardwareRegsState)
    (h : cpu_action_ready r = true) :
    (tick_arbitrate i r).1 ≠ TickOutcome.fetchOpcode ∧
    (tick_arbitrate i r).1 ≠ TickOutcome.unknownAction ∧
    (tick_arbitrate i r).1.servicedCount ≤ 1 ∧
    (r.cpu_action.nmi = true → (tick_arbitrate i r).1 = TickOutcome.serviceNmi) ∧
    (r.cpu_action.nmi = false → r.cpu_action.irq = true →
      (tick_arbitrate i r).1 =
        (if i then TickOutcome.irqBlocked else TickOutcome.serviceIrq)) ∧
    ((tick_arbitrate i r).1 = TickOutcome.serviceIrq → i = false) ∧
    (r.cpu_action.nmi = false → r.cpu_action.irq = false → r.cpu_action.dma = true →
      (tick_arbitrate i r).1 = TickOutcome.serviceDma r.dma_channel_mask) := by
  rcases r with ⟨⟨nmi, irq, dma⟩, rest⟩
  cases nmi <;> cases irq <;> cases dma <;> cases i <;>
    simp_all [tick_arbitrate, cpu_action_ready, TickOutcome.servicedCount]

/-- Pending state with all three actions raised, used to witness C9. -/
def pendingRegsFix : HardwareRegsState :=
  { hwRegsFix with cpu_action := { nmi := true, irq := true, dma := true } }

theorem tick_services_at_most_one_action_witness :
    cpu_action_ready pendingRegsFix = true ∧
    ((tick_arbitrate false pendingRegsFix).1 ≠ TickOutcome.fetchOpcode ∧
      (tick_arbitrate false pendingRegsFix).1 ≠ TickOutcome.unknownAction ∧
      (tick_arbitrate false pendingRegsFix).1.servicedCount ≤ 1 ∧
      (pendingRegsFix.cpu_action.nmi = true →
        (tick_arbitrate false pendingRegsFix).1 = TickOutcome.serviceNmi) ∧
      (pendingRegsFix.cpu_action.nmi = false → pendingRegsFix.cpu_action.irq = true →
        (tick_arbitrate false pendingRegsFix).1 =
          (if false then TickOutcome.irqBlocked else TickOutcome.serviceIrq)) ∧
      ((tick_arbitrate false pendingRegsFix).1 = TickOutcome.serviceIrq → false = false) ∧
      (pendingRegsFix.cpu_action.nmi = false → pendingRegsFix.cpu_action.irq = false →
        pendingRegsFix.cpu_action.dma = true →
        (tick_arbitrate false pendingRegsFix).1 =
          TickOutcome.serviceDma pendingRegsFix.dma_channel_mask)) :=
  ⟨by decide, tick_services_at_most_one_action false pendingRegsFix (by decide)⟩

/-- Claim C10: whenever the bus router decodes an address to the SRAM
port, the access is total: the in-SRAM offset is reduced modulo the SRAM
length before indexing so the index is always in bounds, and with zero
declared SRAM a read returns 0 and a write is dropped. -/
theorem sram_access_total (mode : RomMode) (bank offset : Nat) (sram : List Nat)
    (v index : Nat) (_hdec : (byte_at mode bank offset).1 = BusTarget.sram index) :
    (0 < sram.length →
      index % sram.length < sram.length ∧
      SramBus.read sram index = sram.getD (index % sram.length) 0 ∧
      (SramBus.write sram index v).length = sram.length) ∧
    (sram.length = 0 →
      SramBus.read sram index = 0 ∧ SramBus.write sram index v = sram) := by
  constructor
  · intro hlen
    refine ⟨Nat.mod_lt _ hlen, ?_, ?_⟩
    · rw [SramBus.read, dif_pos hlen, List.getD_eq_getElem sram 0 (Nat.mod_lt _ hlen)]
      simp [List.get_eq_getElem]
    · rw [SramBus.write, if_pos hlen, List.length_set]
  · intro hlen
    constructor
    · rw [SramBus.read, dif_neg (by omega)]
    · rw [SramBus.write, if_neg (by omega)]

theorem sram_access_total_witness :
    (byte_at RomMode.loRom 0x70 0x0005).1 = BusTarget.sram 5 ∧
    ((0 < [1, 2, 3].length →
      5 % [1, 2, 3].length < [1, 2, 3].length ∧
      SramBus.read [1, 2, 3] 5 = [1, 2, 3].getD (5 % [1, 2, 3].length) 0 ∧
      (SramBus.write [1, 2, 3] 5 9).length = [1, 2, 3].length) ∧
    ([1, 2, 3].length = 0 →
      SramBus.read [1, 2, 3] 5 = 0 ∧ SramBus.write [1, 2, 3] 5 9 = [1, 2, 3])) :=
  ⟨by decide, sram_access_total RomMode.loRom 0x70 0x0005 [1, 2, 3] 9 5 (by decide)⟩

end Snailemu
